import Mathlib

/-!
Verification of the membership-event correlation engine of the
Discord-Raid-Preventor bot (`src/bot.py`): the sliding-window burst-join raid
detector (`record_join_and_enforce`), the invite-delta inviter attribution
(`cache_invites_for_guild`, `detect_used_invite_and_record_inviter`), and the
banned-inviter alt-propagation logic (`on_member_ban`, `on_member_join`,
`mark_inviter_banned_and_flag_invitees`).

The Python global dictionaries (`join_log`, `invite_cache`, `member_inviter`,
`inviter_index`, `flagged_accounts`, `banned_inviters`) are shallowly embedded
as a `BotState` record of total functions (a `defaultdict` is a total map into
the default value).  Timestamps are natural-number seconds; `datetime`
subtraction compared against the non-negative window is faithfully rendered by
truncated `Nat` subtraction (for `t > ts` both the Python signed difference and
the truncated difference fail the `> window` test and pass the `≤ window`
test).  External effects (fetching invites, kicking, sending messages) are
modelled as explicit inputs (fetch outcomes) and outputs (kick commands,
notices); a `try/except` around an external call becomes total absorption of
the failure value.
-/

namespace RaidPreventor

/-- Environment default `RAID_WINDOW_SECONDS = 60` (bot.py line 98). -/
def RAID_WINDOW_SECONDS : Nat := 60

/-- Environment default `RAID_THRESHOLD_JOINS = 5` (bot.py line 99). -/
def RAID_THRESHOLD_JOINS : Nat := 5

/-- Pointwise update of a total map, the effect of `d[k] = v` on a
(default)dict embedded as a function. -/
def fupdate {α : Type} {β : Type} [DecidableEq α] (f : α → β) (a : α) (b : β) : α → β :=
  fun x => if x = a then b else f x

/-- Update of a two-level dict, `d[k1][k2] = v`. -/
def fupdate2 {α β γ : Type} [DecidableEq α] [DecidableEq β]
    (f : α → β → γ) (a : α) (b : β) (c : γ) : α → β → γ :=
  fupdate f a (fupdate (f a) b c)

/-- A guild invite as returned by the platform API: its code, its use count
(`None` possible, the source guards with `inv.uses or 0`), and the inviter's
user id (`None` when the invite has no recorded inviter). -/
structure Invite where
  code : String
  uses : Option Nat
  inviter : Option Nat
deriving DecidableEq, Repr

/-- `inv.uses or 0` (bot.py lines 341 and 359). -/
def usesOf (inv : Invite) : Nat := inv.uses.getD 0

/-- One insertion into a Python dict rendered as an association list: an
existing key keeps its position and takes the new value, a new key is appended
(insertion order). -/
def dinsert {α : Type} (acc : List (String × α)) (kv : String × α) : List (String × α) :=
  if acc.any (fun e => decide (e.1 = kv.1)) then
    acc.map (fun e => if e.1 = kv.1 then (e.1, kv.2) else e)
  else acc ++ [kv]

/-- The Python dict built by inserting the pairs of `l` left to right
(`{k(x): v(x) for x in xs}`). -/
def dictOf {α : Type} (l : List (String × α)) : List (String × α) :=
  l.foldl dinsert []

/-- `before.get(code, 0)` on the cached snapshot (bot.py line 362): an absent
code counts as zero uses. -/
def lookupUses (before : List (String × Nat)) (code : String) : Nat :=
  match before.find? (fun e => decide (e.1 = code)) with
  | some e => e.2
  | none => 0

/-- The in-memory global state of the bot process (bot.py lines 140-156). -/
structure BotState where
  /-- `join_log`: per guild, the deque of `(timestamp, member_id)` join
  records (capacity 2000). -/
  joinLog : Nat → List (Nat × Nat)
  /-- `invite_cache`: per guild, the stored snapshot `invite_code → uses`. -/
  inviteCache : Nat → List (String × Nat)
  /-- `member_inviter`: per guild, `member_id → inviter_id or None`; the outer
  `Option` distinguishes an absent key from a stored `None`. -/
  memberInviter : Nat → Nat → Option (Option Nat)
  /-- `inviter_index`: global (not per guild) `inviter_id → set of member_ids`. -/
  inviterIndex : Nat → List Nat
  /-- `flagged_accounts`: per guild, `member_id → reason`. -/
  flaggedAccounts : Nat → Nat → Option String
  /-- `banned_inviters`: per guild, the set of banned inviter ids. -/
  bannedInviters : Nat → List Nat

/-- The state at process start: every dict empty. -/
def initState : BotState where
  joinLog := fun _ => []
  inviteCache := fun _ => []
  memberInviter := fun _ _ => none
  inviterIndex := fun _ => []
  flaggedAccounts := fun _ _ => none
  bannedInviters := fun _ => []

/-- `set.add`: Python set membership embedded over lists. -/
def insertIfAbsent (l : List Nat) (x : Nat) : List Nat :=
  if x ∈ l then l else l ++ [x]

/-- `fetch_guild_invites` (bot.py lines 203-212): the `guild.invites()` call
either returns a list or raises; both `except` arms log and return `[]`. -/
def fetchGuildInvites (result : Except String (List Invite)) : List Invite :=
  match result with
  | Except.ok invites => invites
  | Except.error _ => []

/-- `cache_invites_for_guild` (bot.py lines 337-343): rebuild the snapshot
dict from the fetched list and store it wholesale for the guild. -/
def cacheInvitesForGuild (st : BotState) (gid : Nat)
    (result : Except String (List Invite)) : BotState :=
  let invites := fetchGuildInvites result
  let cache := dictOf (invites.map (fun inv => (inv.code, usesOf inv)))
  { st with inviteCache := fupdate st.inviteCache gid cache }

/-- The `for code, (uses_after, inv_obj) in after_map.items():` loop of
`detect_used_invite_and_record_inviter` (bot.py lines 361-365): stop at the
first code whose use count strictly increased and take its inviter (possibly
`None`); report `None` when no code increased. -/
def firstUsedInviter (before : List (String × Nat)) :
    List (String × Invite) → Option Nat
  | [] => none
  | e :: rest =>
    if lookupUses before e.1 < usesOf e.2 then e.2.inviter
    else firstUsedInviter before rest

/-- `detect_used_invite_and_record_inviter` (bot.py lines 345-373): diff the
cached snapshot against a fresh fetch, store the new snapshot unconditionally,
record the attribution for the member, and index the member under the inviter
when one was found (`if used_inviter_id:` — Python truthiness, false for 0). -/
def detectUsedInviteAndRecordInviter (st : BotState) (gid mid : Nat)
    (result : Except String (List Invite)) : Option Nat × BotState :=
  let before := st.inviteCache gid
  let invitesNow := fetchGuildInvites result
  let afterMap := dictOf (invitesNow.map (fun inv => (inv.code, inv)))
  let used := firstUsedInviter before afterMap
  let cache' := afterMap.map (fun e => (e.1, usesOf e.2))
  let index' :=
    match used with
    | some u =>
      if u = 0 then st.inviterIndex
      else fupdate st.inviterIndex u (insertIfAbsent (st.inviterIndex u) mid)
    | none => st.inviterIndex
  (used,
   { st with
      inviteCache := fupdate st.inviteCache gid cache'
      memberInviter := fupdate2 st.memberInviter gid mid (some used)
      inviterIndex := index' })

/-- The resolution rule as the specification words it: the first code of the
after-snapshot whose use count strictly increased over the before-snapshot
(absent before counts as 0, a decrease is no increase) names the inviter;
otherwise the resolution is unknown. -/
def specResolveInviter (before : List (String × Nat))
    (after : List (String × Invite)) : Option Nat :=
  (after.find? (fun e => decide (lookupUses before e.1 < usesOf e.2))).bind
    (fun e => e.2.inviter)

lemma firstUsedInviter_eq_spec (before : List (String × Nat)) :
    ∀ after : List (String × Invite),
      firstUsedInviter before after = specResolveInviter before after := by
  intro after
  induction after with
  | nil => rfl
  | cons e rest ih =>
    by_cases h : lookupUses before e.1 < usesOf e.2
    · simp [firstUsedInviter, specResolveInviter, List.find?, h]
    · simpa [firstUsedInviter, specResolveInviter, List.find?, h] using ih

/-- C6: `resolveInviter` returns the inviter associated with the first invite
code in the after-snapshot whose use count strictly increased relative to the
before-snapshot, where a code absent from the before-snapshot counts as
`uses_before = 0` (built into `lookupUses`) and a decreased count is treated as
no increase for that code; if no code's count increased, the resolution is
unknown. -/
theorem resolve_inviter_first_increase_spec (st : BotState) (gid mid : Nat)
    (result : Except String (List Invite)) :
    (detectUsedInviteAndRecordInviter st gid mid result).1 =
      specResolveInviter (st.inviteCache gid)
        (dictOf ((fetchGuildInvites result).map (fun inv => (inv.code, inv)))) := by
  unfold detectUsedInviteAndRecordInviter
  exact firstUsedInviter_eq_spec _ _

lemma firstUsedInviter_eq_none_of_nochange (before : List (String × Nat))
    (after : List (String × Invite))
    (h : ∀ e ∈ after, lookupUses before e.1 = usesOf e.2) :
    firstUsedInviter before after = none := by
  induction after with
  | nil => rfl
  | cons e rest ih =>
    have he : lookupUses before e.1 = usesOf e.2 := h e (List.mem_cons_self e rest)
    have hnot : ¬ lookupUses before e.1 < usesOf e.2 := by omega
    simp only [firstUsedInviter, if_neg hnot]
    exact ih (fun x hx => h x (List.mem_cons_of_mem e hx))

/-- C7: after every call to `resolveInviter`, the stored snapshot for the
guild equals the freshly fetched after-snapshot regardless of whether
resolution succeeded; and when the before-snapshot equals the after-snapshot
(same uses for every code of the after-snapshot), the resolution is unknown,
the attribution map records unknown (`None`) for that member, and the
`InviterIndex` is unchanged. -/
theorem resolve_updates_snapshot_and_nochange_unknown (st : BotState)
    (gid mid : Nat) (result : Except String (List Invite)) :
    ((detectUsedInviteAndRecordInviter st gid mid result).2.inviteCache gid =
      (dictOf ((fetchGuildInvites result).map (fun inv => (inv.code, inv)))).map
        (fun e => (e.1, usesOf e.2)))
    ∧ ((∀ e ∈ dictOf ((fetchGuildInvites result).map (fun inv => (inv.code, inv))),
          lookupUses (st.inviteCache gid) e.1 = usesOf e.2) →
        (detectUsedInviteAndRecordInviter st gid mid result).1 = none
        ∧ (detectUsedInviteAndRecordInviter st gid mid result).2.memberInviter gid mid =
            some none
        ∧ (detectUsedInviteAndRecordInviter st gid mid result).2.inviterIndex =
            st.inviterIndex) := by
  constructor
  · simp [detectUsedInviteAndRecordInviter, fupdate]
  · intro h
    have hnone := firstUsedInviter_eq_none_of_nochange _ _ h
    refine ⟨?_, ?_, ?_⟩
    · simpa [detectUsedInviteAndRecordInviter] using hnone
    · simp [detectUsedInviteAndRecordInviter, fupdate2, fupdate, hnone]
    · simp [detectUsedInviteAndRecordInviter, hnone]

/-- A concrete state whose guild-1 snapshot is `{a: 3}`, for the C7 witness. -/
def nochangeState : BotState :=
  { initState with inviteCache := fupdate initState.inviteCache 1 [("a", 3)] }

/-- A fetch outcome identical to the stored snapshot of `nochangeState`. -/
def nochangeFetch : Except String (List Invite) :=
  Except.ok [⟨"a", some 3, some 9⟩]

/-- Witness for C7 at a concrete no-change refresh: stored snapshot `{a: 3}`,
fresh fetch returns the same single invite with 3 uses and inviter 9. -/
theorem resolve_updates_snapshot_and_nochange_unknown_witness :
    (detectUsedInviteAndRecordInviter nochangeState 1 42 nochangeFetch).2.inviteCache 1 = [("a", 3)]
    ∧ (detectUsedInviteAndRecordInviter nochangeState 1 42 nochangeFetch).1 = none
    ∧ (detectUsedInviteAndRecordInviter nochangeState 1 42 nochangeFetch).2.memberInviter 1 42 =
        some none
    ∧ (detectUsedInviteAndRecordInviter nochangeState 1 42 nochangeFetch).2.inviterIndex 9 = [] := by
  have h := resolve_updates_snapshot_and_nochange_unknown nochangeState 1 42 nochangeFetch
  have h2 := h.2 (by decide)
  exact ⟨h.1.trans (by decide), h2.1, h2.2.1, (congrFun h2.2.2 9).trans (by decide)⟩

/-- C4 counterexample: with stored snapshot `{a: 3}`, a totally failed refresh
(`Forbidden`) does not leave the previous snapshot in place — it replaces it
with the empty snapshot. -/
theorem failed_refresh_wipes_snapshot_counterexample :
    (cacheInvitesForGuild
        { initState with inviteCache := fupdate initState.inviteCache 1 [("a", 3)] }
        1 (Except.error "Missing permission")).inviteCache 1
      ≠ { initState with inviteCache := fupdate initState.inviteCache 1 [("a", 3)] }.inviteCache 1 := by
  decide

/-- C4 as amended: a totally failed refresh is absorbed (the call completes,
no other guild's snapshot and no other state field is touched, so membership
processing is never aborted), but the guild's stored snapshot is replaced by
the empty snapshot rather than left in place. -/
theorem failed_refresh_noerror_but_empties_snapshot (st : BotState) (gid : Nat)
    (msg : String) :
    (cacheInvitesForGuild st gid (Except.error msg)).inviteCache gid = []
    ∧ (∀ g, g ≠ gid →
        (cacheInvitesForGuild st gid (Except.error msg)).inviteCache g = st.inviteCache g)
    ∧ (cacheInvitesForGuild st gid (Except.error msg)).joinLog = st.joinLog
    ∧ (cacheInvitesForGuild st gid (Except.error msg)).memberInviter = st.memberInviter
    ∧ (cacheInvitesForGuild st gid (Except.error msg)).inviterIndex = st.inviterIndex
    ∧ (cacheInvitesForGuild st gid (Except.error msg)).flaggedAccounts = st.flaggedAccounts
    ∧ (cacheInvitesForGuild st gid (Except.error msg)).bannedInviters = st.bannedInviters := by
  refine ⟨?_, ?_, rfl, rfl, rfl, rfl, rfl⟩
  · simp [cacheInvitesForGuild, fetchGuildInvites, dictOf, fupdate]
  · intro g hg
    simp [cacheInvitesForGuild, fupdate, hg]

/-- Witness for C4 (amended) at guild 1 with a `Forbidden` failure. -/
theorem failed_refresh_noerror_but_empties_snapshot_witness :
    (cacheInvitesForGuild initState 1 (Except.error "Forbidden")).inviteCache 1 = []
    ∧ (cacheInvitesForGuild initState 1 (Except.error "Forbidden")).inviteCache 2 =
        initState.inviteCache 2 := by
  have h := failed_refresh_noerror_but_empties_snapshot initState 1 "Forbidden"
  exact ⟨h.1, h.2.1 2 (by decide)⟩

/-- `join_log[guild.id].append((ts, member.id))` on a `deque(maxlen=2000)`
(bot.py lines 141 and 418): appending to a full deque silently discards the
leftmost (oldest) record. -/
def appendCapped (log : List (Nat × Nat)) (e : Nat × Nat) : List (Nat × Nat) :=
  if 2000 ≤ log.length then log.tail ++ [e] else log ++ [e]

/-- The pruning loop of `record_join_and_enforce` (bot.py lines 421-422):
`while join_log and (ts - join_log[0][0] > window): popleft()`. -/
def pruneOld (ts w : Nat) (log : List (Nat × Nat)) : List (Nat × Nat) :=
  log.dropWhile (fun e => decide (w < ts - e.1))

/-- The window-tracker part of `record_join_and_enforce` (bot.py lines
417-422): append the new join record, then prune records older than the
window from the front. -/
def recordJoin (w : Nat) (log : List (Nat × Nat)) (ts mid : Nat) : List (Nat × Nat) :=
  pruneOld ts w (appendCapped log (ts, mid))

/-- One attempted `member.kick` command (bot.py line 432) with its reason and
its external outcome. -/
structure KickCmd where
  member : Nat
  reason : String
  ok : Bool
deriving DecidableEq, Repr

/-- The reason string of bot.py line 432:
`f"Raid prevention: {len(to_kick)} joins in {RAID_WINDOW_SECONDS}s"`. -/
def raidReason (n w : Nat) : String := s!"Raid prevention: {n} joins in {w}s"

/-- Result of `record_join_and_enforce`: the new per-guild join log and the
kick commands issued (in order). -/
structure EnforceResult where
  log : List (Nat × Nat)
  kicks : List KickCmd
deriving DecidableEq, Repr

/-- `record_join_and_enforce` (bot.py lines 416-437).  `present` models
`guild.get_member` (a kick is attempted only for members still present) and
`kickOk` the external outcome of each attempted kick (a failure is printed and
swallowed, bot.py lines 434-435). -/
def recordJoinAndEnforce (w th : Nat) (log : List (Nat × Nat)) (ts mid : Nat)
    (present kickOk : Nat → Bool) : EnforceResult :=
  let log2 := recordJoin w log ts mid
  if th < log2.length then
    let toKick := (log2.filter (fun e => decide (ts - e.1 ≤ w))).map (fun e => e.2)
    let kicks := toKick.filterMap (fun uid =>
      if present uid then some ⟨uid, raidReason toKick.length w, kickOk uid⟩ else none)
    ⟨[], kicks⟩
  else ⟨log2, []⟩

lemma mem_dropWhile_append_singleton {p : Nat × Nat → Bool} (a : Nat × Nat)
    (hp : p a = false) : ∀ l : List (Nat × Nat), a ∈ (l ++ [a]).dropWhile p
  | [] => by simp [List.dropWhile, hp]
  | b :: l => by
    by_cases hb : p b
    · simpa [List.dropWhile_cons, hb] using mem_dropWhile_append_singleton a hp l
    · simp [List.dropWhile_cons, hb]

lemma triggering_join_mem_recordJoin (w : Nat) (log : List (Nat × Nat)) (ts mid : Nat) :
    (ts, mid) ∈ recordJoin w log ts mid := by
  unfold recordJoin pruneOld appendCapped
  have hp : (fun e : Nat × Nat => decide (w < ts - e.1)) (ts, mid) = false := by
    simp
  by_cases h : 2000 ≤ log.length
  · simpa [h] using mem_dropWhile_append_singleton _ hp log.tail
  · simpa [h] using mem_dropWhile_append_singleton _ hp log

lemma filterMap_kick_of_all_present (rs : String) (kickOk : Nat → Bool) :
    ∀ (l : List Nat) (present : Nat → Bool), (∀ u ∈ l, present u = true) →
      l.filterMap (fun uid =>
          if present uid then some (⟨uid, rs, kickOk uid⟩ : KickCmd) else none) =
        l.map (fun uid => (⟨uid, rs, kickOk uid⟩ : KickCmd))
  | [], _, _ => rfl
  | u :: l, present, h => by
    have hu : present u = true := h u (List.mem_cons_self u l)
    simp only [List.filterMap_cons, List.map_cons, hu, if_pos]
    rw [filterMap_kick_of_all_present rs kickOk l present
      (fun x hx => h x (List.mem_cons_of_mem u hx))]

/-- C1: for every guild, when a join is recorded and the number of join
records remaining in the window after pruning is strictly greater than
`RAID_THRESHOLD` (default 5), exactly one raid action fires: a kick command
with the raid-prevention reason is issued for every (still present) member
whose join record lies in the window — including the triggering join — and
the guild's join window is empty immediately afterwards; when the count is
less than or equal to the threshold, no kick is issued. -/
theorem raid_trigger_kicks_window_and_clears (w th : Nat) (log : List (Nat × Nat))
    (ts mid : Nat) (present kickOk : Nat → Bool)
    (hp : ∀ u ∈ ((recordJoin w log ts mid).filter
        (fun e => decide (ts - e.1 ≤ w))).map (fun e => e.2), present u = true) :
    (th < (recordJoin w log ts mid).length →
      (recordJoinAndEnforce w th log ts mid present kickOk).kicks.map KickCmd.member =
        ((recordJoin w log ts mid).filter
          (fun e => decide (ts - e.1 ≤ w))).map (fun e => e.2)
      ∧ mid ∈ ((recordJoin w log ts mid).filter
          (fun e => decide (ts - e.1 ≤ w))).map (fun e => e.2)
      ∧ (recordJoinAndEnforce w th log ts mid present kickOk).log = []
      ∧ ∀ k ∈ (recordJoinAndEnforce w th log ts mid present kickOk).kicks,
          k.reason = raidReason (((recordJoin w log ts mid).filter
            (fun e => decide (ts - e.1 ≤ w))).map (fun e => e.2)).length w)
    ∧ ((recordJoin w log ts mid).length ≤ th →
      (recordJoinAndEnforce w th log ts mid present kickOk).log = recordJoin w log ts mid
      ∧ (recordJoinAndEnforce w th log ts mid present kickOk).kicks = []) := by
  constructor
  · intro htrig
    have hmem : mid ∈ ((recordJoin w log ts mid).filter
        (fun e => decide (ts - e.1 ≤ w))).map (fun e => e.2) := by
      refine List.mem_map.mpr ⟨(ts, mid), ?_, rfl⟩
      refine List.mem_filter.mpr ⟨triggering_join_mem_recordJoin w log ts mid, by simp⟩
    have hkicks : (recordJoinAndEnforce w th log ts mid present kickOk).kicks =
        (((recordJoin w log ts mid).filter
          (fun e => decide (ts - e.1 ≤ w))).map (fun e => e.2)).map
            (fun uid => (⟨uid, raidReason (((recordJoin w log ts mid).filter
              (fun e => decide (ts - e.1 ≤ w))).map (fun e => e.2)).length w,
              kickOk uid⟩ : KickCmd)) := by
      simp only [recordJoinAndEnforce, if_pos htrig]
      exact filterMap_kick_of_all_present _ _ _ _ hp
    refine ⟨?_, hmem, ?_, ?_⟩
    · rw [hkicks, List.map_map]
      simp
    · simp only [recordJoinAndEnforce, if_pos htrig]
    · intro k hk
      rw [hkicks] at hk
      obtain ⟨uid, _, rfl⟩ := List.mem_map.mp hk
      rfl
  · intro hcalm
    have hnot : ¬ th < (recordJoin w log ts mid).length := by omega
    constructor <;> simp only [recordJoinAndEnforce, if_neg hnot]

/-- Witness for C1: with threshold 5 and window 60, members 1-5 already in the
window and member 6 joining at `t = 5` trigger kicks of exactly members 1-6
with the raid reason, leaving the window empty. -/
theorem raid_trigger_kicks_window_and_clears_witness :
    (recordJoinAndEnforce 60 5 [(0, 1), (1, 2), (2, 3), (3, 4), (4, 5)] 5 6
        (fun _ => true) (fun _ => true)).kicks.map KickCmd.member = [1, 2, 3, 4, 5, 6]
    ∧ (recordJoinAndEnforce 60 5 [(0, 1), (1, 2), (2, 3), (3, 4), (4, 5)] 5 6
        (fun _ => true) (fun _ => true)).log = []
    ∧ ∀ k ∈ (recordJoinAndEnforce 60 5 [(0, 1), (1, 2), (2, 3), (3, 4), (4, 5)] 5 6
        (fun _ => true) (fun _ => true)).kicks, k.reason = raidReason 6 60 := by
  have h := (raid_trigger_kicks_window_and_clears 60 5 [(0, 1), (1, 2), (2, 3), (3, 4), (4, 5)]
    5 6 (fun _ => true) (fun _ => true) (by decide)).1 (by decide)
  refine ⟨h.1.trans (by decide), h.2.2.1, ?_⟩
  intro k hk
  exact (h.2.2.2 k hk).trans (by decide)

lemma map_member_filterMap_kick (rs : String) (kickOk : Nat → Bool) :
    ∀ (l : List Nat) (present : Nat → Bool),
      (l.filterMap (fun uid =>
          if present uid then some (⟨uid, rs, kickOk uid⟩ : KickCmd) else none)).map
            KickCmd.member = l.filter present
  | [], _ => rfl
  | u :: l, present => by
    by_cases hu : present u
    · simpa [List.filterMap_cons, List.filter_cons, hu]
        using map_member_filterMap_kick rs kickOk l present
    · simpa [List.filterMap_cons, List.filter_cons, hu]
        using map_member_filterMap_kick rs kickOk l present

lemma kicks_map_member_eq_filter_present (w th : Nat) (log : List (Nat × Nat))
    (ts mid : Nat) (present kickOk : Nat → Bool) :
    (recordJoinAndEnforce w th log ts mid present kickOk).kicks.map KickCmd.member =
      if th < (recordJoin w log ts mid).length then
        (((recordJoin w log ts mid).filter
          (fun e => decide (ts - e.1 ≤ w))).map (fun e => e.2)).filter present
      else [] := by
  by_cases htrig : th < (recordJoin w log ts mid).length
  · simp only [recordJoinAndEnforce, if_pos htrig]
    exact map_member_filterMap_kick _ _ _ _
  · simp [recordJoinAndEnforce, if_neg htrig]

/-- C8: during a raid sweep each removal is attempted independently — which
members receive a kick attempt does not depend on the kick outcomes (the
failure of one kick never aborts the remaining attempts), and every present
member of the swept window is attempted exactly once (no retry); a failed
attempt only shows up as the recorded `ok = false` outcome of that one
command. -/
theorem raid_kicks_attempted_independently (w th : Nat) (log : List (Nat × Nat))
    (ts mid : Nat) (present kickOk kickOk' : Nat → Bool) :
    ((recordJoinAndEnforce w th log ts mid present kickOk).kicks.map KickCmd.member =
      (recordJoinAndEnforce w th log ts mid present kickOk').kicks.map KickCmd.member)
    ∧ (recordJoinAndEnforce w th log ts mid present kickOk).kicks.map KickCmd.member =
        (if th < (recordJoin w log ts mid).length then
          (((recordJoin w log ts mid).filter
            (fun e => decide (ts - e.1 ≤ w))).map (fun e => e.2)).filter present
        else []) := by
  refine ⟨?_, kicks_map_member_eq_filter_present w th log ts mid present kickOk⟩
  rw [kicks_map_member_eq_filter_present w th log ts mid present kickOk,
    kicks_map_member_eq_filter_present w th log ts mid present kickOk']

lemma kick_members_mem_recordJoin (w th : Nat) (log : List (Nat × Nat)) (ts mid : Nat)
    (present kickOk : Nat → Bool) :
    ∀ k ∈ (recordJoinAndEnforce w th log ts mid present kickOk).kicks,
      k.member ∈ (recordJoin w log ts mid).map (fun e => e.2) := by
  intro k hk
  have hmem : k.member ∈
      (recordJoinAndEnforce w th log ts mid present kickOk).kicks.map KickCmd.member :=
    List.mem_map_of_mem KickCmd.member hk
  rw [kicks_map_member_eq_filter_present] at hmem
  by_cases htrig : th < (recordJoin w log ts mid).length
  · rw [if_pos htrig] at hmem
    have h1 := List.mem_of_mem_filter hmem
    obtain ⟨e, he, hsnd⟩ := List.mem_map.mp h1
    exact hsnd ▸ List.mem_map_of_mem _ (List.mem_of_mem_filter he)
  · rw [if_neg htrig] at hmem
    exact absurd hmem (List.not_mem_nil _)

/-- C9: the per-guild join log holds at most 2000 records; appending a join
when 2000 records are present silently evicts the oldest record, so the
evicted joiner no longer counts toward the threshold (it is gone from the
window whose length is compared against the threshold) and is not targeted by
the raid sweep (kick commands only ever name members of the window). -/
theorem join_log_capacity_evicts_oldest (w th t0 m0 ts mid : Nat)
    (rest : List (Nat × Nat)) (present kickOk : Nat → Bool)
    (hlen : ((t0, m0) :: rest).length = 2000)
    (hm0 : m0 ∉ rest.map (fun e => e.2)) (hmid : mid ≠ m0) :
    recordJoin w ((t0, m0) :: rest) ts mid = pruneOld ts w (rest ++ [(ts, mid)])
    ∧ m0 ∉ (recordJoin w ((t0, m0) :: rest) ts mid).map (fun e => e.2)
    ∧ (∀ k ∈ (recordJoinAndEnforce w th ((t0, m0) :: rest) ts mid present kickOk).kicks,
        k.member ≠ m0)
    ∧ m0 ∉ ((recordJoinAndEnforce w th ((t0, m0) :: rest) ts mid
        present kickOk).log.map (fun e => e.2)) := by
  have hev : recordJoin w ((t0, m0) :: rest) ts mid = pruneOld ts w (rest ++ [(ts, mid)]) := by
    unfold recordJoin appendCapped
    rw [if_pos (by omega)]
    rfl
  have hnot : m0 ∉ (recordJoin w ((t0, m0) :: rest) ts mid).map (fun e => e.2) := by
    intro hm
    rw [hev] at hm
    obtain ⟨e, he, hsnd⟩ := List.mem_map.mp hm
    have he2 : e ∈ rest ++ [(ts, mid)] :=
      ((List.dropWhile_suffix _).sublist.subset) he
    rcases List.mem_append.mp he2 with h1 | h1
    · exact hm0 (List.mem_map.mpr ⟨e, h1, hsnd⟩)
    · have : e = (ts, mid) := by simpa using h1
      subst this
      exact hmid hsnd
  refine ⟨hev, hnot, ?_, ?_⟩
  · intro k hk heq
    have := kick_members_mem_recordJoin w th ((t0, m0) :: rest) ts mid present kickOk k hk
    rw [heq] at this
    exact hnot this
  · unfold recordJoinAndEnforce
    by_cases htrig : th < (recordJoin w ((t0, m0) :: rest) ts mid).length
    · simp [if_pos htrig]
    · simpa [if_neg htrig] using hnot

/-- Witness for C9: a full log of 2000 records whose oldest entry is member 5,
followed by a join of member 9; member 5 is evicted, uncounted and unkicked. -/
theorem join_log_capacity_evicts_oldest_witness :
    (5 : Nat) ∉ (recordJoin 60 ((0, 5) :: List.replicate 1999 ((0:Nat), (7:Nat))) 0 9).map
        (fun e => e.2)
    ∧ (∀ k ∈ (recordJoinAndEnforce 60 5 ((0, 5) :: List.replicate 1999 ((0:Nat), (7:Nat)))
        0 9 (fun _ => true) (fun _ => true)).kicks, k.member ≠ 5)
    ∧ (5 : Nat) ∉ ((recordJoinAndEnforce 60 5 ((0, 5) :: List.replicate 1999 ((0:Nat), (7:Nat)))
        0 9 (fun _ => true) (fun _ => true)).log.map (fun e => e.2)) := by
  have h := join_log_capacity_evicts_oldest 60 5 0 5 0 9
    (List.replicate 1999 ((0:Nat), (7:Nat))) (fun _ => true) (fun _ => true)
    (by rw [List.length_cons, List.length_replicate])
    (by simp only [List.map_replicate, List.mem_replicate]; decide)
    (by decide)
  exact ⟨h.2.1, h.2.2.1, h.2.2.2⟩

/-- The join-window state reached by recording a whole sequence of joins for
one guild through the tracker part of `record_join_and_enforce`, starting
from an empty log. -/
def processAll (w : Nat) (js : List (Nat × Nat)) : List (Nat × Nat) :=
  js.foldl (fun log e => recordJoin w log e.1 e.2) []

lemma processAll_append_single (w : Nat) (js : List (Nat × Nat)) (e : Nat × Nat) :
    processAll w (js ++ [e]) = recordJoin w (processAll w js) e.1 e.2 := by
  simp [processAll, List.foldl_append]

lemma dropWhile_eq_filter_of_sorted (ts w : Nat) :
    ∀ l : List (Nat × Nat), l.Pairwise (fun a b => a.1 ≤ b.1) →
      l.dropWhile (fun e => decide (w < ts - e.1)) =
        l.filter (fun e => decide (ts - e.1 ≤ w))
  | [], _ => rfl
  | a :: l, h => by
    obtain ⟨ha, hl⟩ := List.pairwise_cons.mp h
    by_cases hp : w < ts - a.1
    · have h1 : ¬ (ts - a.1 ≤ w) := by omega
      have e1 : (a :: l).dropWhile (fun e => decide (w < ts - e.1)) =
          l.dropWhile (fun e => decide (w < ts - e.1)) := by
        simp [List.dropWhile_cons, decide_eq_true hp]
      have e2 : (a :: l).filter (fun e => decide (ts - e.1 ≤ w)) =
          l.filter (fun e => decide (ts - e.1 ≤ w)) := by
        simp only [List.filter_cons]
        rw [if_neg]
        simp only [decide_eq_true_eq]
        omega
      rw [e1, e2]
      exact dropWhile_eq_filter_of_sorted ts w l hl
    · have h1 : ts - a.1 ≤ w := by omega
      have e1 : (a :: l).dropWhile (fun e => decide (w < ts - e.1)) = a :: l := by
        simp [List.dropWhile_cons, decide_eq_false hp]
      have e2 : (a :: l).filter (fun e => decide (ts - e.1 ≤ w)) =
          a :: l.filter (fun e => decide (ts - e.1 ≤ w)) := by
        simp only [List.filter_cons]
        rw [if_pos]
        simp only [decide_eq_true_eq]
        omega
      rw [e1, e2]
      have hrest : l.filter (fun e => decide (ts - e.1 ≤ w)) = l := by
        refine List.filter_eq_self.mpr ?_
        intro b hb
        have hab : a.1 ≤ b.1 := ha b hb
        simp only [decide_eq_true_eq]
        omega
      rw [hrest]

lemma processAll_eq_filter (w : Nat) (js : List (Nat × Nat)) :
    ∀ (tn mn : Nat),
      ((js ++ [(tn, mn)]).Pairwise (fun a b => a.1 ≤ b.1)) →
      js.length < 2000 →
      processAll w (js ++ [(tn, mn)]) =
        (js ++ [(tn, mn)]).filter (fun e => decide (tn - e.1 ≤ w)) := by
  induction js using List.reverseRecOn with
  | nil =>
    intro tn mn _ _
    simp only [List.nil_append, processAll, List.foldl_cons, List.foldl_nil]
    have : recordJoin w [] tn mn = [(tn, mn)] := by
      simp [recordJoin, appendCapped, pruneOld, List.dropWhile]
    rw [this]
    simp
  | append_singleton l a ih =>
    intro tn mn hs hl
    obtain ⟨t, m⟩ := a
    have hsl : (l ++ [(t, m)]).Pairwise (fun a b => a.1 ≤ b.1) :=
      hs.sublist (List.sublist_append_left _ _)
    have hll : l.length < 2000 := by
      have : (l ++ [(t, m)]).length = l.length + 1 := by simp
      omega
    have hL := ih t m hsl hll
    have hbound : ∀ x ∈ l ++ [(t, m)], x.1 ≤ tn := by
      obtain ⟨_, _, hmid⟩ := List.pairwise_append.mp hs
      intro x hx
      exact hmid x hx (tn, mn) (List.mem_singleton_self _)
    have htln : t ≤ tn := hbound (t, m) (List.mem_append_right _ (List.mem_singleton_self _))
    rw [processAll_append_single, hL]
    set L := (l ++ [(t, m)]).filter (fun e => decide (t - e.1 ≤ w)) with hLdef
    have hlenL : L.length < 2000 := by
      rw [hLdef]
      have h1 := List.length_filter_le (fun e => decide (t - e.1 ≤ w)) (l ++ [(t, m)])
      have h2 : (l ++ [(t, m)]).length = l.length + 1 := by simp
      omega
    have happ : appendCapped L (tn, mn) = L ++ [(tn, mn)] := by
      unfold appendCapped
      rw [if_neg]
      omega
    have hLsorted : L.Pairwise (fun a b => a.1 ≤ b.1) :=
      hsl.sublist (List.filter_sublist _)
    have hMsorted : (L ++ [(tn, mn)]).Pairwise (fun a b => a.1 ≤ b.1) := by
      refine List.pairwise_append.mpr ⟨hLsorted, List.pairwise_singleton _ _, ?_⟩
      intro x hx y hy
      have hy2 : y = (tn, mn) := by simpa using hy
      subst hy2
      exact hbound x (List.mem_of_mem_filter hx)
    have hdrop : (L ++ [(tn, mn)]).dropWhile (fun e => decide (w < tn - e.1)) =
        (L ++ [(tn, mn)]).filter (fun e => decide (tn - e.1 ≤ w)) :=
      dropWhile_eq_filter_of_sorted tn w _ hMsorted
    have hfiltL : L.filter (fun e => decide (tn - e.1 ≤ w)) =
        (l ++ [(t, m)]).filter (fun e => decide (tn - e.1 ≤ w)) := by
      rw [hLdef, List.filter_filter]
      refine List.filter_congr ?_
      intro x hx
      by_cases hq : tn - x.1 ≤ w
      · have hqt : t - x.1 ≤ w := by omega
        rw [decide_eq_true hq, decide_eq_true hqt]
        rfl
      · rw [decide_eq_false hq]
        rfl
    have hsingle : ([(tn, mn)] : List (Nat × Nat)).filter
        (fun e => decide (tn - e.1 ≤ w)) = [(tn, mn)] := by
      rw [List.filter_cons, if_pos]
      · rfl
      · exact decide_eq_true (by omega)
    calc recordJoin w L tn mn
        = (L ++ [(tn, mn)]).dropWhile (fun e => decide (w < tn - e.1)) := by
          rw [recordJoin, pruneOld, happ]
      _ = (L ++ [(tn, mn)]).filter (fun e => decide (tn - e.1 ≤ w)) := hdrop
      _ = L.filter (fun e => decide (tn - e.1 ≤ w)) ++ [(tn, mn)] := by
          rw [List.filter_append, hsingle]
      _ = (l ++ [(t, m)]).filter (fun e => decide (tn - e.1 ≤ w)) ++ [(tn, mn)] := by
          rw [hfiltL]
      _ = ((l ++ [(t, m)]) ++ [(tn, mn)]).filter (fun e => decide (tn - e.1 ≤ w)) := by
          rw [List.filter_append (l ++ [(t, m)]) [(tn, mn)], hsingle]

/-- C2 as amended: for a sequence of joins with non-decreasing timestamps in
which at most 2000 records accumulate (the deque capacity of `join_log`), the
window after recording the join at time `tn` consists exactly of the records
with `tn - ti ≤ RAID_WINDOW`, so its count is the number of such `ti`; the
window is always a suffix of the recorded sequence (pruning removes only the
oldest records, from the front). -/
theorem join_window_count_correct_upto_capacity (w : Nat) (js : List (Nat × Nat))
    (tn mn : Nat)
    (hs : (js ++ [(tn, mn)]).Pairwise (fun a b => a.1 ≤ b.1))
    (hl : js.length < 2000) :
    processAll w (js ++ [(tn, mn)]) =
      (js ++ [(tn, mn)]).filter (fun e => decide (tn - e.1 ≤ w))
    ∧ (processAll w (js ++ [(tn, mn)])).length =
        ((js ++ [(tn, mn)]).filter (fun e => decide (tn - e.1 ≤ w))).length
    ∧ (processAll w (js ++ [(tn, mn)])).IsSuffix (js ++ [(tn, mn)]) := by
  have h := processAll_eq_filter w js tn mn hs hl
  refine ⟨h, by rw [h], ?_⟩
  have hdrop : (js ++ [(tn, mn)]).dropWhile (fun e => decide (w < tn - e.1)) =
      (js ++ [(tn, mn)]).filter (fun e => decide (tn - e.1 ≤ w)) :=
    dropWhile_eq_filter_of_sorted tn w _ hs
  rw [h, ← hdrop]
  exact List.dropWhile_suffix _

/-- Witness for C2 (amended): joins of members 1, 2, 3 at times 0, 1, 2 with
window 60 leave all three records in the window. -/
theorem join_window_count_correct_upto_capacity_witness :
    processAll 60 [(0, 1), (1, 2), (2, 3)] = [(0, 1), (1, 2), (2, 3)]
    ∧ (processAll 60 [(0, 1), (1, 2), (2, 3)]).length = 3
    ∧ (processAll 60 [(0, 1), (1, 2), (2, 3)]).IsSuffix [(0, 1), (1, 2), (2, 3)] := by
  have h := join_window_count_correct_upto_capacity 60 [(0, 1), (1, 2)] 2 3
    (by decide) (by decide)
  exact ⟨h.1.trans (by decide), (h.2.1).trans (by decide), h.2.2⟩

lemma dropWhile_old_replicate_zero :
    ∀ m : Nat, (List.replicate m ((0 : Nat), (0 : Nat))).dropWhile
        (fun e => decide (60 < 0 - e.1)) = List.replicate m ((0 : Nat), (0 : Nat))
  | 0 => rfl
  | m + 1 => by
    rw [List.replicate_succ, List.dropWhile_cons]
    rfl

lemma recordJoin_replicate_zero (k : Nat) (hk : k ≤ 2000) :
    recordJoin 60 (List.replicate k ((0 : Nat), (0 : Nat))) 0 0 =
      List.replicate (min (k + 1) 2000) ((0 : Nat), (0 : Nat)) := by
  unfold recordJoin appendCapped pruneOld
  by_cases h : (2000 : Nat) ≤ k
  · have hk2 : k = 2000 := by omega
    subst hk2
    rw [if_pos (by rw [List.length_replicate])]
    have htail : (List.replicate 2000 ((0 : Nat), (0 : Nat))).tail =
        List.replicate 1999 ((0 : Nat), (0 : Nat)) := by
      rw [show (2000 : Nat) = 1999 + 1 from rfl, List.replicate_succ, List.tail_cons]
    rw [htail, ← List.replicate_succ']
    have hmin : min (2000 + 1) 2000 = 1999 + 1 := by omega
    rw [hmin]
    exact dropWhile_old_replicate_zero (1999 + 1)
  · rw [if_neg (by rw [List.length_replicate]; omega)]
    rw [← List.replicate_succ']
    have hmin : min (k + 1) 2000 = k + 1 := by omega
    rw [hmin]
    exact dropWhile_old_replicate_zero (k + 1)

lemma foldl_recordJoin_replicate_zero :
    ∀ (n k : Nat), k ≤ 2000 →
      (List.replicate n ((0 : Nat), (0 : Nat))).foldl
          (fun log e => recordJoin 60 log e.1 e.2)
          (List.replicate k ((0 : Nat), (0 : Nat))) =
        List.replicate (min (k + n) 2000) ((0 : Nat), (0 : Nat))
  | 0, k, hk => by
    rw [show List.replicate 0 ((0 : Nat), (0 : Nat)) = [] from rfl, List.foldl_nil]
    have : min (k + 0) 2000 = k := by omega
    rw [this]
  | n + 1, k, hk => by
    rw [List.replicate_succ, List.foldl_cons, recordJoin_replicate_zero k hk,
      foldl_recordJoin_replicate_zero n (min (k + 1) 2000) (by omega)]
    have : min (min (k + 1) 2000 + n) 2000 = min (k + (n + 1)) 2000 := by omega
    rw [this]

/-- C2 counterexample: 2001 joins, all at timestamp 0 (non-decreasing) and all
inside the 60-second window; the claim predicts a window count of 2001, but
the deque capacity silently evicted the oldest record and only 2000 remain. -/
theorem join_window_count_capacity_counterexample :
    (processAll 60 (List.replicate 2001 ((0 : Nat), (0 : Nat)))).length ≠
      ((List.replicate 2001 ((0 : Nat), (0 : Nat))).filter
        (fun e => decide ((0 : Nat) - e.1 ≤ 60))).length := by
  have h1 : processAll 60 (List.replicate 2001 ((0 : Nat), (0 : Nat))) =
      List.replicate 2000 ((0 : Nat), (0 : Nat)) := by
    have hf := foldl_recordJoin_replicate_zero 2001 0 (by omega)
    rw [processAll]
    rw [show ([] : List (Nat × Nat)) = List.replicate 0 ((0 : Nat), (0 : Nat)) from rfl]
    rw [hf]
    have hm : min (0 + 2001) 2000 = 2000 := by omega
    rw [hm]
  have h2 : (List.replicate 2001 ((0 : Nat), (0 : Nat))).filter
      (fun e => decide ((0 : Nat) - e.1 ≤ 60)) =
        List.replicate 2001 ((0 : Nat), (0 : Nat)) := by
    refine List.filter_eq_self.mpr ?_
    intro a ha
    have : a = ((0 : Nat), (0 : Nat)) := (List.mem_replicate.mp ha).2
    subst this
    decide
  rw [h1, h2, List.length_replicate, List.length_replicate]
  omega

/-- An outbound best-effort notification (channel broadcast or direct
message); every send is wrapped in `try/except pass` in the source, so the
model records the attempted notice. -/
inductive Notice where
  | channelBroadcast (gid : Nat) (text : String)
  | dmUser (uid : Nat) (text : String)
  | dmGuildOwner (gid : Nat) (text : String)
  | dmBotOwner (text : String)
deriving DecidableEq, Repr

/-- The flag reason written by `on_member_ban` (bot.py line 518). -/
def banReason (uid : Nat) : String := s!"Invited by now-banned user <@{uid}>"

/-- The loop body of `on_member_ban` (bot.py lines 516-535): for a member id
from the inviter's index, if the id is truthy, store the flag reason, and if
the member is still present send the three best-effort notifications. -/
def banFlagStep (gid uid : Nat) (present : Nat → Bool)
    (acc : BotState × List Notice) (mid : Nat) : BotState × List Notice :=
  if mid ≠ 0 then
    let st1 := { acc.1 with
      flaggedAccounts := fupdate2 acc.1.flaggedAccounts gid mid (some (banReason uid)) }
    if present mid then
      (st1, acc.2 ++
        [Notice.dmUser mid
          s!"You have been flagged as a possible alt account (invited by banned user <@{uid}>).",
         Notice.dmGuildOwner gid
          s!"Alert: member {mid} was flagged as possible alt (invited by banned user <@{uid}>).",
         Notice.dmBotOwner
          s!"Alert: member {mid} was flagged as possible alt (invited by banned user <@{uid}>)."])
    else (st1, acc.2)
  else acc

/-- `on_member_ban` (bot.py lines 511-537): unconditionally add the banned
user to the guild's banned-inviter set, then sweep every member id in the
global inviter index for that user, flagging and notifying each. -/
def onMemberBan (st : BotState) (gid uid : Nat) (present : Nat → Bool) :
    BotState × List Notice :=
  let st1 := { st with
    bannedInviters := fupdate st.bannedInviters gid (insertIfAbsent (st.bannedInviters gid) uid) }
  (st1.inviterIndex uid).foldl (banFlagStep gid uid present) (st1, [])

/-- `flag_and_alert_on_existing_member` (bot.py lines 391-411): one channel
broadcast plus three best-effort direct messages. -/
def flagAndAlertOnExistingMember (gid mid bannedId : Nat) (reason : String) : List Notice :=
  [Notice.channelBroadcast gid
    s!"THIS ACCOUNT IS LIKELY AN ALT ACCOUNT OF <@{bannedId}> - TAKE PRECAUTION",
   Notice.dmUser mid
    s!"You have been flagged as a possible alt account: {reason}. Please contact staff if this is a mistake.",
   Notice.dmGuildOwner gid s!"Alert: member {mid} was flagged as possible alt: {reason}",
   Notice.dmBotOwner s!"Alert: member {mid} was flagged as possible alt: {reason}"]

/-- `mark_inviter_banned_and_flag_invitees` (bot.py lines 375-389): the
guarded sweep — a no-op when the user is already in the guild's
banned-inviter set.  This function is defined in the source but never called
by any event handler. -/
def markInviterBannedAndFlagInvitees (st : BotState) (gid uid : Nat)
    (present : Nat → Bool) : BotState × List Notice :=
  if uid ∈ st.bannedInviters gid then (st, [])
  else
    let st1 := { st with
      bannedInviters := fupdate st.bannedInviters gid (insertIfAbsent (st.bannedInviters gid) uid) }
    (st1.inviterIndex uid).foldl
      (fun acc mid =>
        if present mid then
          let reason := s!"Invited by banned user <@{uid}>"
          let st2 := { acc.1 with
            flaggedAccounts := fupdate2 acc.1.flaggedAccounts gid mid (some reason) }
          (st2, acc.2 ++ flagAndAlertOnExistingMember gid mid uid reason)
        else acc)
      (st1, [])

/-- `on_member_join` (bot.py lines 478-508): record the join and enforce the
raid threshold, resolve the inviter, and if the resolved inviter is already
banned in this guild, flag the member and emit the broadcast plus three
direct messages. -/
def onMemberJoin (st : BotState) (gid mid ts : Nat) (present kickOk : Nat → Bool)
    (result : Except String (List Invite)) : BotState × List Notice × List KickCmd :=
  let er := recordJoinAndEnforce RAID_WINDOW_SECONDS RAID_THRESHOLD_JOINS
    (st.joinLog gid) ts mid present kickOk
  let st1 := { st with joinLog := fupdate st.joinLog gid er.log }
  let det := detectUsedInviteAndRecordInviter st1 gid mid result
  match det.1 with
  | some inv =>
    if inv ≠ 0 ∧ inv ∈ det.2.bannedInviters gid then
      let reason := s!"Invited by banned user <@{inv}>"
      let st3 := { det.2 with
        flaggedAccounts := fupdate2 det.2.flaggedAccounts gid mid (some reason) }
      (st3,
       [Notice.channelBroadcast gid
          s!"THIS ACCOUNT IS LIKELY AN ALT ACCOUNT OF <@{inv}> - TAKE PRECAUTION",
        Notice.dmUser mid
          "You have been flagged as a possible alt account (invited by banned user). If you believe this is a mistake contact the server staff.",
        Notice.dmGuildOwner gid
          s!"Alert: member {mid} joined and was flagged as a possible alt (invited by banned user <@{inv}>).",
        Notice.dmBotOwner
          s!"Alert: member {mid} flagged as suspected alt (invited by banned user <@{inv}>)."],
       er.kicks)
    else (det.2, [], er.kicks)
  | none => (det.2, [], er.kicks)

lemma banFlagStep_flag_lookup (gid uid : Nat) (present : Nat → Bool)
    (acc : BotState × List Notice) (mid m : Nat) :
    (banFlagStep gid uid present acc mid).1.flaggedAccounts gid m =
      if mid ≠ 0 ∧ m = mid then some (banReason uid)
      else acc.1.flaggedAccounts gid m := by
  unfold banFlagStep
  by_cases h0 : mid ≠ 0
  · rw [if_pos h0]
    by_cases hm : m = mid
    · subst hm
      by_cases hp : present m
      · rw [if_pos hp, if_pos ⟨h0, rfl⟩]
        simp [fupdate2, fupdate]
      · rw [if_neg hp, if_pos ⟨h0, rfl⟩]
        simp [fupdate2, fupdate]
    · have hcond : ¬ (mid ≠ 0 ∧ m = mid) := fun hc => hm hc.2
      by_cases hp : present mid
      · rw [if_pos hp, if_neg hcond]
        simp [fupdate2, fupdate, hm]
      · rw [if_neg hp, if_neg hcond]
        simp [fupdate2, fupdate, hm]
  · have hcond : ¬ (mid ≠ 0 ∧ m = mid) := fun hc => h0 hc.1
    rw [if_neg h0, if_neg hcond]

lemma banFlagStep_flag_isSome (gid uid : Nat) (present : Nat → Bool)
    (acc : BotState × List Notice) (mid : Nat) (g x : Nat)
    (h : (acc.1.flaggedAccounts g x).isSome = true) :
    ((banFlagStep gid uid present acc mid).1.flaggedAccounts g x).isSome = true := by
  unfold banFlagStep
  by_cases h0 : mid ≠ 0
  · rw [if_pos h0]
    have hgoal : ((fupdate2 acc.1.flaggedAccounts gid mid
        (some (banReason uid))) g x).isSome = true := by
      unfold fupdate2 fupdate
      by_cases hg : g = gid
      · subst hg
        by_cases hx : x = mid
        · simp [hx]
        · simpa [hx] using h
      · simpa [hg] using h
    by_cases hp : present mid
    · rw [if_pos hp]
      exact hgoal
    · rw [if_neg hp]
      exact hgoal
  · rw [if_neg h0]
    exact h

lemma foldl_banFlagStep_flags (gid uid : Nat) (present : Nat → Bool) :
    ∀ (l : List Nat) (acc : BotState × List Notice) (m : Nat), m ≠ 0 →
      (m ∈ l ∨ acc.1.flaggedAccounts gid m = some (banReason uid)) →
      (l.foldl (banFlagStep gid uid present) acc).1.flaggedAccounts gid m =
        some (banReason uid)
  | [], acc, m, _, h => by
    rcases h with h | h
    · exact absurd h (List.not_mem_nil m)
    · exact h
  | mid :: l, acc, m, hm0, h => by
    rw [List.foldl_cons]
    refine foldl_banFlagStep_flags gid uid present l _ m hm0 ?_
    rcases h with hmem | hflag
    · rcases List.mem_cons.mp hmem with heq | hl
      · right
        rw [banFlagStep_flag_lookup, if_pos ⟨heq ▸ hm0, heq⟩]
      · left
        exact hl
    · right
      rw [banFlagStep_flag_lookup]
      by_cases hc : mid ≠ 0 ∧ m = mid
      · rw [if_pos hc]
      · rw [if_neg hc]
        exact hflag

lemma foldl_banFlagStep_isSome (gid uid : Nat) (present : Nat → Bool) :
    ∀ (l : List Nat) (acc : BotState × List Notice) (g x : Nat),
      (acc.1.flaggedAccounts g x).isSome = true →
      ((l.foldl (banFlagStep gid uid present) acc).1.flaggedAccounts g x).isSome = true
  | [], _, _, _, h => h
  | mid :: l, acc, g, x, h => by
    rw [List.foldl_cons]
    exact foldl_banFlagStep_isSome gid uid present l _ g x
      (banFlagStep_flag_isSome gid uid present acc mid g x h)

/-- C5 as amended: a stored flag is never removed by a later ban sweep — the
member stays flagged — but a later flagging event does overwrite the stored
reason with its own: the most recent flag reason is authoritative, not the
first. -/
theorem flag_persists_last_reason_wins (st : BotState) (gid uid : Nat)
    (present : Nat → Bool) (m : Nat) (hm : m ∈ st.inviterIndex uid) (hm0 : m ≠ 0) :
    (onMemberBan st gid uid present).1.flaggedAccounts gid m = some (banReason uid)
    ∧ ∀ g x r, st.flaggedAccounts g x = some r →
        ((onMemberBan st gid uid present).1.flaggedAccounts g x).isSome = true := by
  constructor
  · exact foldl_banFlagStep_flags gid uid present _ _ m hm0 (Or.inl hm)
  · intro g x r hr
    refine foldl_banFlagStep_isSome gid uid present _ _ g x ?_
    show (st.flaggedAccounts g x).isSome = true
    rw [hr]
    rfl

/-- A state in which member 8 was already flagged with an earlier reason and
is indexed under inviter 3, for the C5 witness. -/
def flaggedDemoState : BotState :=
  { initState with
      inviterIndex := fupdate initState.inviterIndex 3 [8]
      flaggedAccounts := fupdate2 initState.flaggedAccounts 1 8 (some "old reason") }

/-- Witness for C5 (amended): the ban sweep overwrites the previously stored
reason of member 8 with its own, and the member remains flagged. -/
theorem flag_persists_last_reason_wins_witness :
    (onMemberBan flaggedDemoState 1 3 (fun _ => true)).1.flaggedAccounts 1 8 =
      some "Invited by now-banned user <@3>"
    ∧ ((onMemberBan flaggedDemoState 1 3 (fun _ => true)).1.flaggedAccounts 1 8).isSome = true := by
  have h := flag_persists_last_reason_wins flaggedDemoState 1 3 (fun _ => true) 8
    (by decide) (by decide)
  exact ⟨h.1.trans (by decide), h.2 1 8 "old reason" (by decide)⟩

/-- A state in which member 42 joined guild 1 via an invite of the already
banned user 7, for the C5 counterexample trace. -/
def joinFlagState : BotState :=
  { initState with
      bannedInviters := fupdate initState.bannedInviters 1 [7]
      inviteCache := fupdate initState.inviteCache 1 [("a", 0)] }

/-- C5 counterexample: member 42 is flagged on join (inviter 7 already
banned) with reason `Invited by banned user <@7>`; a later ban event for 7
re-flags 42 and overwrites the stored reason with
`Invited by now-banned user <@7>` — the first recorded reason is not
authoritative. -/
theorem flag_reason_overwritten_counterexample :
    ((onMemberJoin joinFlagState 1 42 0 (fun _ => true) (fun _ => true)
        (Except.ok [⟨"a", some 1, some 7⟩])).1.flaggedAccounts 1 42 =
      some "Invited by banned user <@7>")
    ∧ ((onMemberBan (onMemberJoin joinFlagState 1 42 0 (fun _ => true) (fun _ => true)
        (Except.ok [⟨"a", some 1, some 7⟩])).1 1 7 (fun _ => true)).1.flaggedAccounts 1 42 =
      some "Invited by now-banned user <@7>")
    ∧ "Invited by banned user <@7>" ≠ "Invited by now-banned user <@7>" := by
  decide

/-- A state with inviter 7 indexed to member 42, for the C3 trace. -/
def banDemoState : BotState :=
  { initState with inviterIndex := fupdate initState.inviterIndex 7 [42] }

/-- C3: the `on_member_ban` handler has no idempotency guard — a second
`MemberBanned` event for the same user re-runs the sweep and re-emits the
same non-empty notification batch even though the user is already in the
guild's banned-inviter set; the guarded sweep the source also defines
(`mark_inviter_banned_and_flag_invitees`, which would be a no-op here) is
never called by the handler. -/
theorem double_ban_event_renotifies :
    7 ∈ (onMemberBan banDemoState 1 7 (fun _ => true)).1.bannedInviters 1
    ∧ (onMemberBan (onMemberBan banDemoState 1 7 (fun _ => true)).1 1 7 (fun _ => true)).2 =
        (onMemberBan banDemoState 1 7 (fun _ => true)).2
    ∧ (onMemberBan banDemoState 1 7 (fun _ => true)).2 ≠ []
    ∧ (markInviterBannedAndFlagInvitees (onMemberBan banDemoState 1 7 (fun _ => true)).1 1 7
        (fun _ => true)).2 = [] := by
  decide

lemma mem_insertIfAbsent_self (l : List Nat) (x : Nat) : x ∈ insertIfAbsent l x := by
  unfold insertIfAbsent
  by_cases h : x ∈ l
  · rwa [if_pos h]
  · rw [if_neg h]
    exact List.mem_append_right l (List.mem_singleton_self x)

lemma detect_adds_to_index (st : BotState) (gid mid : Nat)
    (result : Except String (List Invite)) (uid : Nat)
    (h : (detectUsedInviteAndRecordInviter st gid mid result).1 = some uid)
    (h0 : uid ≠ 0) :
    mid ∈ (detectUsedInviteAndRecordInviter st gid mid result).2.inviterIndex uid := by
  unfold detectUsedInviteAndRecordInviter at h ⊢
  simp only [] at h ⊢
  rw [h]
  simp only [if_neg h0, fupdate, if_pos rfl]
  exact mem_insertIfAbsent_self _ mid

/-- C10: the `InviterIndex` is a single map shared by all guilds — an
attribution recorded while member `mid` joined guild `g1` makes a later ban
of the inviter in any guild `g2` flag `mid` in `g2`'s flag map, even though
the attribution was made in a different guild. -/
theorem inviter_index_global_cross_guild_flag (st : BotState) (g1 g2 mid uid : Nat)
    (result : Except String (List Invite)) (present : Nat → Bool)
    (h : (detectUsedInviteAndRecordInviter st g1 mid result).1 = some uid)
    (h0 : uid ≠ 0) (hm : mid ≠ 0) :
    (onMemberBan (detectUsedInviteAndRecordInviter st g1 mid result).2 g2 uid
        present).1.flaggedAccounts g2 mid = some (banReason uid) := by
  have hidx := detect_adds_to_index st g1 mid result uid h h0
  exact foldl_banFlagStep_flags g2 uid present _ _ mid hm (Or.inl hidx)

/-- Witness for C10: member 42 joins guild 1 via invite `a` of inviter 7;
banning 7 in guild 2 records a flag for 42 in guild 2's flag map. -/
theorem inviter_index_global_cross_guild_flag_witness :
    (onMemberBan (detectUsedInviteAndRecordInviter initState 1 42
        (Except.ok [⟨"a", some 1, some 7⟩])).2 2 7
        (fun _ => true)).1.flaggedAccounts 2 42 =
      some "Invited by now-banned user <@7>" := by
  have h := inviter_index_global_cross_guild_flag initState 1 2 42 7
    (Except.ok [⟨"a", some 1, some 7⟩]) (fun _ => true) (by decide) (by decide) (by decide)
  exact h.trans (by decide)

end RaidPreventor
